import Mathlib

/-!
A verification development for the walden dataset catalog
(src/owid/walden/catalog.py and src/owid/walden/files.py).

The filesystem is explicit state: a list of (path, content) entries in
creation/walk order, plus a list of existing directories.  The HTTP transport,
the object-storage upload call and the md5 digest are collaborator parameters.
String and path manipulation is modelled structurally over lists of
characters so that every definition evaluates by kernel reduction.
-/

namespace Walden

/-- Lexicographic comparison of character lists by Unicode code point, the
order Python uses to compare strings. -/
def leChars : List Char → List Char → Bool
  | [], _ => true
  | _ :: _, [] => false
  | a :: as, b :: bs =>
    if a.toNat < b.toNat then true
    else if b.toNat < a.toNat then false
    else leChars as bs

/-- Python string comparison, as used by sorted(). -/
def strLe (a b : String) : Bool := leChars a.data b.data

/-- Split a character list on a separator character (Python str.split). -/
def splitChar (sep : Char) : List Char → List (List Char)
  | [] => [[]]
  | c :: cs =>
    if c = sep then [] :: splitChar sep cs
    else
      match splitChar sep cs with
      | [] => [[c]]
      | g :: gs => (c :: g) :: gs

/-- Join character lists with a separator character. -/
def joinChar (sep : Char) : List (List Char) → List Char
  | [] => []
  | [g] => g
  | g :: gs => g ++ sep :: joinChar sep gs

/-- Python os.path.join for the relative, slash-free components walden uses. -/
def joinPath (a b : String) : String := a ++ "/" ++ b

/-- Python os.path.dirname. -/
def dirname (p : String) : String :=
  String.mk (joinChar '/' ((splitChar '/' p.data).dropLast))

/-- True when p lies strictly under the directory base, which is how os.walk
visits files in the model. -/
def underDir (base p : String) : Bool := List.isPrefixOf (base ++ "/").data p.data

/-- Python str.endswith applied to the ".json" suffix. -/
def endsJson (p : String) : Bool := List.isSuffixOf ".json".data p.data

/-- The directories os.makedirs(p) guarantees to exist afterwards: p itself and
every ancestor of p. -/
def ancestors (p : String) : List String :=
  p :: (List.range ((splitChar '/' p.data).length - 1)).map
    (fun k => String.mk (joinChar '/' ((splitChar '/' p.data).take (k + 1))))

/-- Little-endian base-10 digits, with explicit structural fuel so the
definition evaluates by kernel reduction. -/
def digitsAuxF : Nat → Nat → List Nat
  | 0, _ => []
  | _ + 1, 0 => []
  | f + 1, n + 1 => (n + 1) % 10 :: digitsAuxF f ((n + 1) / 10)

/-- Little-endian base-10 digits of a natural number (empty for 0). -/
def natDigits (n : Nat) : List Nat := digitsAuxF n n

/-- Value of a little-endian base-10 digit list. -/
def ofDigitsLE : List Nat → Nat
  | [] => 0
  | d :: ds => d + 10 * ofDigitsLE ds

/-- The character for a single decimal digit. -/
def digitToChar (d : Nat) : Char := Char.ofNat (48 + d)

/-- The decimal digit denoted by a character. -/
def charToDigit (c : Char) : Nat := c.toNat - 48

/-- Recognizes a decimal digit character. -/
def isDigitC (c : Char) : Bool := 48 ≤ c.toNat && c.toNat ≤ 57

/-- Python str(n) for a natural number, as a character list. -/
def natChars (n : Nat) : List Char :=
  if n = 0 then ['0'] else (natDigits n).reverse.map digitToChar

/-- Zero padding to a fixed width, as performed by str on a datetime.date. -/
def padDigits (k : Nat) (cs : List Char) : List Char :=
  List.replicate (k - cs.length) '0' ++ cs

/-- Parse a non-empty all-digit character list as a natural number. -/
def parseNatChars (cs : List Char) : Option Nat :=
  if cs.isEmpty || !(cs.all isDigitC) then none
  else some (ofDigitsLE ((cs.map charToDigit).reverse))

/-- A datetime.date value. -/
structure PyDate where
  year : Nat
  month : Nat
  day : Nat
deriving DecidableEq

/-- Python str(date): the zero-padded ISO form YYYY-MM-DD. -/
def dateToStr (d : PyDate) : String :=
  String.mk (padDigits 4 (natChars d.year) ++
    '-' :: (padDigits 2 (natChars d.month) ++ '-' :: padDigits 2 (natChars d.day)))

/-- ISO date parsing, the inverse used when a record is reconstructed from its
JSON document. -/
def decDate (s : String) : Option PyDate :=
  match splitChar '-' s.data with
  | [ys, ms, ds] =>
    match parseNatChars ys, parseNatChars ms, parseNatChars ds with
    | some y, some m, some d => some ⟨y, m, d⟩
    | _, _, _ => none
  | _ => none

/-- JSON documents, the payload of index files. -/
inductive Json where
  | null : Json
  | bool (b : Bool) : Json
  | num (n : Int) : Json
  | str (s : String) : Json
  | arr (elems : List Json) : Json
  | obj (fields : List (String × Json)) : Json

/-- Contents of a file on disk: raw bytes, a well-formed JSON document, or
text that fails to parse as JSON. -/
inductive Content where
  | bytes (data : List Nat) : Content
  | jsonDoc (j : Json) : Content
  | notJson (text : String) : Content

/-- Explicit filesystem state: files in creation/walk order, plus the existing
directories. -/
structure FS where
  files : List (String × Content)
  dirs : List String

/-- Contents of the file at a path, if one exists. -/
def FS.lookupFile (fs : FS) (p : String) : Option Content :=
  List.lookup p fs.files

/-- Python os.path.exists for a file path. -/
def FS.existsFile (fs : FS) (p : String) : Bool :=
  (fs.lookupFile p).isSome

/-- Python os.path.isdir. -/
def FS.isDir (fs : FS) (p : String) : Bool :=
  fs.dirs.contains p

/-- Writing a file replaces any previous content at that path. -/
def FS.writeFile (fs : FS) (p : String) (c : Content) : FS :=
  { fs with files := (p, c) :: fs.files.filter (fun e => e.1 != p) }

/-- Deleting a file. -/
def FS.removeFile (fs : FS) (p : String) : FS :=
  { fs with files := fs.files.filter (fun e => e.1 != p) }

/-- Python os.makedirs: creates the directory and all missing ancestors. -/
def FS.makedirs (fs : FS) (p : String) : FS :=
  { fs with dirs := ancestors p ++ fs.dirs }

/-- Errors raised by the embedded operations, named after the exceptions and
error conditions of the source. -/
inductive WErr where
  | missingVersionField : WErr
  | checksumDoesNotMatch (url : String) : WErr
  | recordWithInvalidJSON (path : String) : WErr
  | preconditionFailed (path : String) : WErr
  | httpError (status : Nat) : WErr
  | fileNotFound (path : String) : WErr
deriving DecidableEq

/-- An HTTP response: a status code plus the body bytes.  Chunking only
affects the progress bar, so the body is the concatenation of the streamed
chunks, exactly what the rolling md5 in stream_to_file digests. -/
structure HttpResp where
  status : Nat
  body : List Nat

/-- files.download, shallowly embedded.  The md5 digest and the transport are
collaborator parameters; tempName is the fresh path chosen by
tempfile.NamedTemporaryFile, whose directory always exists and which is
created with delete set to False.  Returns the raised error if any, the
resulting filesystem, and the list of URLs fetched. -/
def download (digest : List Nat → String) (net : String → HttpResp)
    (tempName : String) (url filename : String) (expected_md5 : Option String)
    (fs : FS) : Option WErr × FS × List String :=
  let fs1 := fs.writeFile tempName (Content.bytes [])
  let r := net url
  if 400 ≤ r.status then
    (some (WErr.httpError r.status), fs1, [url])
  else
    let fs2 := fs1.writeFile tempName (Content.bytes r.body)
    let md5 := digest r.body
    let mismatch :=
      match expected_md5 with
      | some e => e != "" && md5 != e
      | none => false
    if mismatch then
      (some (WErr.checksumDoesNotMatch url), fs2, [url])
    else
      if fs2.isDir (dirname filename) then
        (none, (fs2.removeFile tempName).writeFile filename (Content.bytes r.body), [url])
      else
        (some (WErr.fileNotFound filename), fs2, [url])

/-- files.iter_json: every path ending in .json under the base directory, in
filesystem walk order. -/
def iter_json (fs : FS) (base_dir : String) : List String :=
  (fs.files.map Prod.fst).filter (fun p => underDir base_dir p && endsJson p)

/-- Insertion into a sorted list of strings. -/
def insertStr (x : String) : List String → List String
  | [] => [x]
  | y :: ys => if strLe x y then x :: y :: ys else y :: insertStr x ys

/-- Python sorted() on a list of strings. -/
def sortStrs : List String → List String
  | [] => []
  | x :: xs => insertStr x (sortStrs xs)

/-- The per-file loop of files.iter_docs: parse each document and yield it,
aborting on the first file whose contents fail to parse as JSON. -/
def iterDocsGo (fs : FS) : List String → List (String × Json) × Option WErr
  | [] => ([], none)
  | f :: rest =>
    match fs.lookupFile f with
    | some (Content.jsonDoc j) =>
      let r := iterDocsGo fs rest
      ((f, j) :: r.1, r.2)
    | some (Content.notJson _) => ([], some (WErr.recordWithInvalidJSON f))
    | some (Content.bytes _) => ([], some (WErr.recordWithInvalidJSON f))
    | none => ([], some (WErr.fileNotFound f))

/-- files.iter_docs: yields (path, document) pairs in sorted path order; the
pairs yielded before any abort are returned alongside the error. -/
def iter_docs (fs : FS) (folder : String) : List (String × Json) × Option WErr :=
  iterDocsGo fs (sortStrs (iter_json fs folder))

/-- catalog.CACHE_DIR, the expanded user cache directory.  Its exact text is
irrelevant to every property below. -/
def CACHE_DIR : String := "~/.owid/walden"

/-- catalog.BASE_DIR, the repository root. -/
def BASE_DIR : String := "walden"

/-- catalog.INDEX_DIR, the folder of JSON index documents. -/
def INDEX_DIR : String := joinPath BASE_DIR "index"

/-- catalog.Dataset.  The first field carries a trailing underscore only
because its Python name is reserved in Lean. -/
structure Dataset where
  namespace_ : String
  short_name : String
  name : String
  description : String
  source_name : String
  url : String
  date_accessed : String
  source_data_url : String
  file_extension : String
  md5 : Option String := none
  publication_year : Option Int := none
  publication_date : Option PyDate := none
  owid_data_url : Option String := none
deriving DecidableEq

/-- catalog.Dataset.version.  Python truthiness: an int field is falsy when 0
and a date object is always truthy, so the year branch is taken exactly when
publication_year is set and nonzero. -/
def Dataset.version (d : Dataset) : Except WErr String :=
  match d.publication_year with
  | some y =>
    if y ≠ 0 then Except.ok (toString y)
    else
      match d.publication_date with
      | some pd => Except.ok (dateToStr pd)
      | none => Except.error WErr.missingVersionField
  | none =>
    match d.publication_date with
    | some pd => Except.ok (dateToStr pd)
    | none => Except.error WErr.missingVersionField

/-- catalog.Dataset.relative_base. -/
def Dataset.relative_base (d : Dataset) : Except WErr String := do
  let v ← d.version
  return joinPath (joinPath d.namespace_ v) d.short_name

/-- catalog.Dataset.index_path. -/
def Dataset.index_path (d : Dataset) : Except WErr String := do
  let rb ← d.relative_base
  return joinPath INDEX_DIR (rb ++ ".json")

/-- catalog.Dataset.local_path. -/
def Dataset.local_path (d : Dataset) : Except WErr String := do
  let rb ← d.relative_base
  return joinPath CACHE_DIR (rb ++ "." ++ d.file_extension)

/-- The remote key dest_path computed inside catalog.Dataset.upload. -/
def Dataset.remote_key (d : Dataset) : Except WErr String := do
  let rb ← d.relative_base
  return rb ++ "." ++ d.file_extension

/-- JSON encoding of an optional string field: null when absent. -/
def optStrJson : Option String → Json
  | some s => Json.str s
  | none => Json.null

/-- JSON encoding of an optional int field: null when absent. -/
def optIntJson : Option Int → Json
  | some n => Json.num n
  | none => Json.null

/-- JSON encoding of an optional date field: null when absent, ISO string
otherwise. -/
def optDateJson : Option PyDate → Json
  | some d => Json.str (dateToStr d)
  | none => Json.null

/-- Serialization used by catalog.Dataset.save: one JSON field per dataclass
field, null for absent optionals, the ISO string for the date. -/
def Dataset.to_dict (d : Dataset) : Json :=
  Json.obj
    [ ("namespace", Json.str d.namespace_)
    , ("short_name", Json.str d.short_name)
    , ("name", Json.str d.name)
    , ("description", Json.str d.description)
    , ("source_name", Json.str d.source_name)
    , ("url", Json.str d.url)
    , ("date_accessed", Json.str d.date_accessed)
    , ("source_data_url", Json.str d.source_data_url)
    , ("file_extension", Json.str d.file_extension)
    , ("md5", optStrJson d.md5)
    , ("publication_year", optIntJson d.publication_year)
    , ("publication_date", optDateJson d.publication_date)
    , ("owid_data_url", optStrJson d.owid_data_url) ]

/-- Field access in a JSON object. -/
def getField (j : Json) (key : String) : Option Json :=
  match j with
  | Json.obj fields => List.lookup key fields
  | _ => none

/-- Decode a mandatory string field. -/
def asStr : Option Json → Option String
  | some (Json.str s) => some s
  | _ => none

/-- Decode an optional string field. -/
def asOptStr : Option Json → Option (Option String)
  | some Json.null => some none
  | some (Json.str s) => some (some s)
  | _ => none

/-- Decode an optional int field. -/
def asOptInt : Option Json → Option (Option Int)
  | some Json.null => some none
  | some (Json.num n) => some (some n)
  | _ => none

/-- Decode an optional date field. -/
def asOptDate : Option Json → Option (Option PyDate)
  | some Json.null => some none
  | some (Json.str s) => (decDate s).map some
  | _ => none

/-- Deserialization used when a record is reconstructed from an index
document, inverse to Dataset.to_dict. -/
def Dataset.from_dict (j : Json) : Option Dataset := do
  let ns ← asStr (getField j "namespace")
  let sn ← asStr (getField j "short_name")
  let nm ← asStr (getField j "name")
  let de ← asStr (getField j "description")
  let so ← asStr (getField j "source_name")
  let u ← asStr (getField j "url")
  let da ← asStr (getField j "date_accessed")
  let sdu ← asStr (getField j "source_data_url")
  let fe ← asStr (getField j "file_extension")
  let m ← asOptStr (getField j "md5")
  let py ← asOptInt (getField j "publication_year")
  let pd ← asOptDate (getField j "publication_date")
  let odu ← asOptStr (getField j "owid_data_url")
  return ⟨ns, sn, nm, de, so, u, da, sdu, fe, m, py, pd, odu⟩

/-- catalog.Dataset.save: writes the serialized document to the index path
with open(path, w).  Opening for writing truncates existing content but
requires the parent directory to exist; save does not create it.  The
json.dumps and json.load pair is modelled at the document level. -/
def Dataset.save (d : Dataset) (fs : FS) : Option WErr × FS :=
  match d.index_path with
  | Except.error e => (some e, fs)
  | Except.ok p =>
    if fs.isDir (dirname p) then
      (none, fs.writeFile p (Content.jsonDoc d.to_dict))
    else
      (some (WErr.fileNotFound p), fs)

/-- Python a or b for an optional string a: None and the empty string are both
falsy. -/
def pyOrStr (a : Option String) (b : String) : String :=
  match a with
  | some u => if u = "" then b else u
  | none => b

/-- catalog.Dataset.ensure_downloaded.  Returns the local path or the raised
error, the resulting filesystem, and the list of URLs fetched. -/
def Dataset.ensure_downloaded (digest : List Nat → String) (net : String → HttpResp)
    (tempName : String) (d : Dataset) (fs : FS) :
    Except WErr String × FS × List String :=
  match d.local_path with
  | Except.error e => (Except.error e, fs, [])
  | Except.ok filename =>
    if fs.existsFile filename then
      (Except.ok filename, fs, [])
    else
      let parent := dirname filename
      let fs1 := if fs.isDir parent then fs else fs.makedirs parent
      let u := pyOrStr d.owid_data_url d.source_data_url
      match download digest net tempName u filename none fs1 with
      | (some e, fs2, evs) => (Except.error e, fs2, evs)
      | (none, fs2, evs) => (Except.ok filename, fs2, evs)

/-- One remote upload event: local file, remote key, visibility flag. -/
structure UploadEvent where
  localFile : String
  remoteKey : String
  public : Bool
deriving DecidableEq

/-- catalog.Dataset.upload.  The object-storage call owid_cache.upload is a
collaborator parameter returning the new public URL.  Returns the raised error
if any, the record afterwards, and the upload events performed. -/
def Dataset.upload (cacheUpload : String → String → Bool → String)
    (d : Dataset) (pub : Bool) (fs : FS) :
    Option WErr × Dataset × List UploadEvent :=
  match d.local_path with
  | Except.error e => (some e, d, [])
  | Except.ok lp =>
    if fs.existsFile lp then
      match d.remote_key with
      | Except.error e => (some e, d, [])
      | Except.ok key =>
        let cache_url := cacheUpload lp key pub
        (none, { d with owid_data_url := some cache_url }, [⟨lp, key, pub⟩])
    else
      (some (WErr.preconditionFailed lp), d, [])

/-- A concrete digest collaborator used for witnesses: the decimal digit sum. -/
def digest0 : List Nat → String :=
  fun b => String.mk (natChars (b.foldl (fun a x => a + x) 0))

/-- A concrete transport collaborator used for witnesses. -/
def net0 : String → HttpResp := fun _ => ⟨200, [1, 2, 3]⟩

/-- A concrete object-storage collaborator used for witnesses. -/
def up0 : String → String → Bool → String := fun _ k _ => "http://cache.example/" ++ k

/-- A filesystem with a cache and a temp directory but no files. -/
def fs0 : FS := ⟨[], ["cache", "tmp"]⟩

/-- The empty filesystem. -/
def fsEmpty : FS := ⟨[], []⟩

/-- A plain sample record with a publication year. -/
def d2020 : Dataset :=
  ⟨"ns", "sn", "n", "de", "so", "u", "da", "http://src/x.csv", "csv",
    none, some 2020, none, none⟩

/-- A record whose publication year is the falsy integer 0. -/
def dYearZero : Dataset := { d2020 with publication_year := some 0 }

/-- A record whose mirror URL is set but empty. -/
def dEmptyMirror : Dataset := { d2020 with owid_data_url := some "" }

/-- A record that differs from d2020 only in non-identity fields. -/
def dOther : Dataset :=
  { d2020 with
    name := "other"
    description := "other"
    md5 := some "ffff"
    source_data_url := "http://elsewhere/y.csv" }

/-- A record with every optional field populated. -/
def dFull : Dataset :=
  ⟨"ns", "sn", "n", "de", "so", "u", "da", "http://src/x.csv", "csv",
    some "abc", some 2020, some ⟨2020, 1, 5⟩, some "http://owid/x.csv"⟩

/-- A filesystem already holding the cached file of d2020. -/
def fsCached : FS := ⟨[("~/.owid/walden/ns/2020/sn.csv", Content.bytes [9])], []⟩

/-- A filesystem holding stale content at the index path of d2020, with the
parent directory present. -/
def fsIdx : FS :=
  ⟨[("walden/index/ns/2020/sn.json", Content.notJson "stale")],
    ["walden/index/ns/2020"]⟩

/-- An index tree of three well-formed documents, in non-sorted walk order. -/
def fsA : FS :=
  ⟨[("idx/b/2019/z.json", Content.jsonDoc Json.null),
    ("idx/a/2020/y.json", Content.jsonDoc (Json.num 1)),
    ("idx/a/2020/x.json", Content.jsonDoc (Json.num 2))], []⟩

/-- The same index tree as fsA with the opposite creation order. -/
def fsA2 : FS := ⟨fsA.files.reverse, []⟩

/-- An index tree whose middle document in sorted order is malformed. -/
def fsB : FS :=
  ⟨[("idx/b/2019/z.json", Content.jsonDoc Json.null),
    ("idx/a/2020/y.json", Content.notJson "oops"),
    ("idx/a/2020/x.json", Content.jsonDoc (Json.num 2))], []⟩

/-!  Lemmas about decimal digits and date round-tripping.  -/

theorem digitToChar_toNat {d : Nat} (h : d < 10) : (digitToChar d).toNat = 48 + d := by
  interval_cases d <;> decide

theorem isDigitC_digitToChar {d : Nat} (h : d < 10) : isDigitC (digitToChar d) = true := by
  interval_cases d <;> decide

theorem charToDigit_digitToChar {d : Nat} (h : d < 10) : charToDigit (digitToChar d) = d := by
  interval_cases d <;> decide

theorem digitToChar_ne_dash {d : Nat} (h : d < 10) : digitToChar d ≠ '-' := by
  interval_cases d <;> decide

theorem digitsAuxF_lt : ∀ (f n : Nat), ∀ d ∈ digitsAuxF f n, d < 10 := by
  intro f
  induction f with
  | zero => intro n d hd; simp [digitsAuxF] at hd
  | succ f ih =>
    intro n d hd
    cases n with
    | zero => simp [digitsAuxF] at hd
    | succ m =>
      simp only [digitsAuxF, List.mem_cons] at hd
      rcases hd with rfl | hd
      · exact Nat.mod_lt _ (by omega)
      · exact ih _ d hd

theorem ofDigitsLE_digitsAuxF : ∀ (f n : Nat), n ≤ f → ofDigitsLE (digitsAuxF f n) = n := by
  intro f
  induction f with
  | zero => intro n h; interval_cases n; rfl
  | succ f ih =>
    intro n h
    cases n with
    | zero => rfl
    | succ m =>
      have hdiv : (m + 1) / 10 ≤ f := by
        have hlt : (m + 1) / 10 < m + 1 := Nat.div_lt_self (Nat.succ_pos m) (by omega)
        omega
      simp only [digitsAuxF, ofDigitsLE, ih _ hdiv]
      exact Nat.mod_add_div (m + 1) 10

theorem ofDigitsLE_natDigits (n : Nat) : ofDigitsLE (natDigits n) = n :=
  ofDigitsLE_digitsAuxF n n (Nat.le_refl n)

theorem natDigits_lt (n : Nat) : ∀ d ∈ natDigits n, d < 10 :=
  digitsAuxF_lt n n

theorem ofDigitsLE_replicate_zero (z : Nat) : ofDigitsLE (List.replicate z 0) = 0 := by
  induction z with
  | zero => rfl
  | succ z ih => simp [List.replicate, ofDigitsLE, ih]

theorem ofDigitsLE_append_zeros (ds : List Nat) (z : Nat) :
    ofDigitsLE (ds ++ List.replicate z 0) = ofDigitsLE ds := by
  induction ds with
  | nil => simpa using ofDigitsLE_replicate_zero z
  | cons d ds ih => simp [ofDigitsLE, ih]

theorem natChars_ne_nil (n : Nat) : natChars n ≠ [] := by
  unfold natChars
  by_cases hn : n = 0
  · simp [hn]
  · rw [if_neg hn]
    intro h
    have h' : natDigits n = [] := List.reverse_eq_nil_iff.mp (List.map_eq_nil_iff.mp h)
    have hv := ofDigitsLE_natDigits n
    rw [h'] at hv
    exact hn (by simpa [ofDigitsLE] using hv.symm)

theorem natChars_all_digits (n : Nat) : ∀ c ∈ natChars n, isDigitC c = true := by
  intro c hc
  unfold natChars at hc
  split at hc
  · simp at hc; subst hc; decide
  · rcases List.mem_map.mp hc with ⟨d, hd, rfl⟩
    exact isDigitC_digitToChar (natDigits_lt n d (List.mem_reverse.mp hd))

theorem natChars_no_dash (n : Nat) : '-' ∉ natChars n := by
  intro hc
  unfold natChars at hc
  split at hc
  · simp at hc
  · rcases List.mem_map.mp hc with ⟨d, hd, hdc⟩
    exact digitToChar_ne_dash (natDigits_lt n d (List.mem_reverse.mp hd)) hdc

theorem padDigits_no_dash {k n : Nat} : '-' ∉ padDigits k (natChars n) := by
  intro h
  rcases List.mem_append.mp h with h | h
  · have := List.eq_of_mem_replicate h
    simp at this
  · exact natChars_no_dash n h

theorem natChars_map_charToDigit (n : Nat) :
    (natChars n).map charToDigit = if n = 0 then [0] else (natDigits n).reverse := by
  unfold natChars
  split
  · decide
  · rw [List.map_map]
    have hmap : List.map (charToDigit ∘ digitToChar) (natDigits n).reverse =
        List.map id (natDigits n).reverse := by
      apply List.map_congr_left
      intro d hd
      simp only [Function.comp_apply, id_eq]
      exact charToDigit_digitToChar (natDigits_lt n d (List.mem_reverse.mp hd))
    rw [hmap, List.map_id]

theorem parseNatChars_padDigits (k n : Nat) :
    parseNatChars (padDigits k (natChars n)) = some n := by
  have hne : ¬ (padDigits k (natChars n)).isEmpty := by
    unfold padDigits
    rcases h : natChars n with _ | ⟨c, cs⟩
    · exact absurd h (natChars_ne_nil n)
    · simp [List.isEmpty_eq_true]
  have hall : (padDigits k (natChars n)).all isDigitC = true := by
    rw [List.all_eq_true]
    intro c hc
    rcases List.mem_append.mp hc with h | h
    · rw [List.eq_of_mem_replicate h]; decide
    · exact natChars_all_digits n c h
  unfold parseNatChars
  rw [if_neg (by simp [hne, hall])]
  congr 1
  unfold padDigits
  rw [List.map_append, List.map_replicate, List.reverse_append, List.reverse_replicate]
  have h0 : charToDigit '0' = 0 := rfl
  rw [h0, natChars_map_charToDigit]
  by_cases h : n = 0
  · subst h
    simpa [ofDigitsLE] using ofDigitsLE_append_zeros [0] _
  · rw [if_neg h, List.reverse_reverse, ofDigitsLE_append_zeros]
    exact ofDigitsLE_natDigits n

theorem splitChar_of_not_mem {sep : Char} :
    ∀ {cs : List Char}, sep ∉ cs → splitChar sep cs = [cs]
  | [], _ => rfl
  | c :: cs, h => by
    have hc : ¬ (c = sep) := fun e => h (e ▸ List.mem_cons_self c cs)
    have hr := splitChar_of_not_mem (fun hm => h (List.mem_cons_of_mem c hm))
    simp only [splitChar, if_neg hc, hr]

theorem splitChar_append {sep : Char} :
    ∀ (a b : List Char), sep ∉ a →
      splitChar sep (a ++ sep :: b) = a :: splitChar sep b
  | [], b, _ => by simp [splitChar]
  | c :: a, b, h => by
    have hc : ¬ (c = sep) := fun e => h (e ▸ List.mem_cons_self c a)
    have hr := splitChar_append a b (fun hm => h (List.mem_cons_of_mem c hm))
    show splitChar sep (c :: (a ++ sep :: b)) = (c :: a) :: splitChar sep b
    rw [splitChar, if_neg hc, hr]

theorem decDate_dateToStr (d : PyDate) : decDate (dateToStr d) = some d := by
  obtain ⟨y, m, dd⟩ := d
  have hs : splitChar '-' (dateToStr ⟨y, m, dd⟩).data =
      [padDigits 4 (natChars y), padDigits 2 (natChars m), padDigits 2 (natChars dd)] := by
    show splitChar '-' (padDigits 4 (natChars y) ++
      '-' :: (padDigits 2 (natChars m) ++ '-' :: padDigits 2 (natChars dd))) = _
    rw [splitChar_append _ _ padDigits_no_dash, splitChar_append _ _ padDigits_no_dash,
      splitChar_of_not_mem padDigits_no_dash]
  unfold decDate
  rw [hs]
  simp [parseNatChars_padDigits]

/-!  Lemmas about the string order and insertion sort.  -/

theorem leChars_total : ∀ (a b : List Char), leChars a b = true ∨ leChars b a = true
  | [], _ => Or.inl rfl
  | _ :: _, [] => Or.inr rfl
  | x :: as, y :: bs => by
    by_cases h1 : x.toNat < y.toNat
    · left; simp [leChars, h1]
    · by_cases h2 : y.toNat < x.toNat
      · right; simp [leChars, h2]
      · rcases leChars_total as bs with h | h
        · left; simp [leChars, h1, h2, h]
        · right; simp [leChars, h1, h2, h]

theorem leChars_trans : ∀ {a b c : List Char},
    leChars a b = true → leChars b c = true → leChars a c = true
  | [], _, _, _, _ => rfl
  | _ :: _, [], _, h1, _ => by simp [leChars] at h1
  | _ :: _, _ :: _, [], _, h2 => by simp [leChars] at h2
  | x :: as, y :: bs, z :: cs, h1, h2 => by
    simp only [leChars] at h1 h2 ⊢
    split_ifs at h1 h2 ⊢ <;>
      first
        | rfl
        | exact leChars_trans h1 h2
        | omega

theorem leChars_antisymm : ∀ {a b : List Char},
    leChars a b = true → leChars b a = true → a = b
  | [], [], _, _ => rfl
  | [], _ :: _, _, h2 => by simp [leChars] at h2
  | _ :: _, [], h1, _ => by simp [leChars] at h1
  | x :: as, y :: bs, h1, h2 => by
    simp only [leChars] at h1 h2
    by_cases hxy : x.toNat < y.toNat
    · rw [if_neg (Nat.lt_asymm hxy), if_pos hxy] at h2
      exact absurd h2 (by simp)
    · by_cases hyx : y.toNat < x.toNat
      · rw [if_neg hxy, if_pos hyx] at h1
        exact absurd h1 (by simp)
      · rw [if_neg hxy, if_neg hyx] at h1
        rw [if_neg hyx, if_neg hxy] at h2
        have heq : x.toNat = y.toNat :=
          Nat.le_antisymm (Nat.le_of_not_lt hyx) (Nat.le_of_not_lt hxy)
        have hxy' : x = y := Char.ext (UInt32.ext_iff.mpr heq)
        rw [hxy', leChars_antisymm h1 h2]

theorem strLe_total (a b : String) : strLe a b = true ∨ strLe b a = true :=
  leChars_total a.data b.data

theorem strLe_trans {a b c : String} (h1 : strLe a b = true) (h2 : strLe b c = true) :
    strLe a c = true :=
  leChars_trans h1 h2

theorem strLe_antisymm {a b : String} (h1 : strLe a b = true) (h2 : strLe b a = true) :
    a = b := by
  cases a; cases b
  exact congrArg String.mk (leChars_antisymm h1 h2)

theorem insertStr_perm (x : String) (l : List String) : (insertStr x l).Perm (x :: l) := by
  induction l with
  | nil => exact List.Perm.refl _
  | cons y ys ih =>
    simp only [insertStr]
    split
    · exact List.Perm.refl _
    · exact (ih.cons y).trans (List.Perm.swap x y ys)

theorem sortStrs_perm (l : List String) : (sortStrs l).Perm l := by
  induction l with
  | nil => exact List.Perm.refl _
  | cons x xs ih => exact (insertStr_perm x (sortStrs xs)).trans (ih.cons x)

theorem insertStr_sorted (x : String) {l : List String}
    (h : l.Pairwise (fun a b => strLe a b = true)) :
    (insertStr x l).Pairwise (fun a b => strLe a b = true) := by
  induction l with
  | nil => simp [insertStr]
  | cons y ys ih =>
    rcases List.pairwise_cons.mp h with ⟨hy, hys⟩
    simp only [insertStr]
    split_ifs with hxy
    · refine List.pairwise_cons.mpr ⟨?_, h⟩
      intro b hb
      rcases List.mem_cons.mp hb with rfl | hb
      · exact hxy
      · exact strLe_trans hxy (hy b hb)
    · refine List.pairwise_cons.mpr ⟨?_, ih hys⟩
      intro b hb
      rcases List.mem_cons.mp ((insertStr_perm x ys).mem_iff.mp hb) with hbx | hb
      · rw [hbx]
        rcases strLe_total x y with h' | h'
        · exact absurd h' hxy
        · exact h'
      · exact hy b hb

theorem sortStrs_sorted (l : List String) :
    (sortStrs l).Pairwise (fun a b => strLe a b = true) := by
  induction l with
  | nil => simp [sortStrs]
  | cons x xs ih => exact insertStr_sorted x ih

theorem sortStrs_eq_of_perm {l1 l2 : List String} (h : l1.Perm l2) :
    sortStrs l1 = sortStrs l2 := by
  haveI : IsAntisymm String (fun a b => strLe a b = true) :=
    ⟨fun _ _ h1 h2 => strLe_antisymm h1 h2⟩
  exact List.eq_of_perm_of_sorted
    (((sortStrs_perm l1).trans h).trans (sortStrs_perm l2).symm)
    (sortStrs_sorted l1) (sortStrs_sorted l2)

/-!  Lemmas about association-list lookup.  -/

theorem lookup_mem {β : Type} : ∀ {l : List (String × β)} {k : String} {v : β},
    List.lookup k l = some v → (k, v) ∈ l := by
  intro l
  induction l with
  | nil => intro k v h; simp [List.lookup] at h
  | cons e es ih =>
    intro k v h
    obtain ⟨a, b⟩ := e
    by_cases hk : (k == a) = true
    · simp only [List.lookup, hk] at h
      obtain rfl : b = v := by injection h
      obtain rfl : k = a := eq_of_beq hk
      exact List.mem_cons_self _ _
    · have hk' : (k == a) = false := by simpa using hk
      simp only [List.lookup, hk'] at h
      exact List.mem_cons_of_mem _ (ih h)

theorem mem_lookup_of_nodup {β : Type} : ∀ {l : List (String × β)} {k : String} {v : β},
    (l.map Prod.fst).Nodup → (k, v) ∈ l → List.lookup k l = some v := by
  intro l
  induction l with
  | nil => intro k v _ h; simp at h
  | cons e es ih =>
    intro k v hnd hmem
    obtain ⟨a, b⟩ := e
    rcases List.pairwise_cons.mp hnd with ⟨ha, hnd'⟩
    rcases List.mem_cons.mp hmem with he | hmem'
    · injection he with h1 h2
      subst h1
      subst h2
      simp [List.lookup]
    · have hka : (k == a) = false := by
        rcases hb : k == a with _ | _
        · rfl
        · obtain rfl : k = a := eq_of_beq hb
          exact absurd rfl (ha _ (List.mem_map.mpr ⟨(_, v), hmem', rfl⟩))
      simp only [List.lookup, hka]
      exact ih hnd' hmem'

theorem lookup_eq_none_of_not_mem {β : Type} : ∀ {l : List (String × β)} {k : String},
    k ∉ l.map Prod.fst → List.lookup k l = none := by
  intro l
  induction l with
  | nil => intro k _; rfl
  | cons e es ih =>
    intro k h
    obtain ⟨a, b⟩ := e
    have hka : (k == a) = false := by
      rcases hb : k == a with _ | _
      · rfl
      · obtain rfl : k = a := eq_of_beq hb
        exact absurd (List.mem_cons_self _ _) h
    simp only [List.lookup, hka]
    exact ih (fun hm => h (List.mem_cons_of_mem _ hm))

theorem lookup_eq_of_perm {β : Type} {l1 l2 : List (String × β)} (hp : l1.Perm l2)
    (hnd : (l1.map Prod.fst).Nodup) (k : String) :
    List.lookup k l1 = List.lookup k l2 := by
  rcases h : List.lookup k l1 with _ | v
  · have hk : k ∉ l1.map Prod.fst := by
      intro hm
      rcases List.mem_map.mp hm with ⟨⟨a, b⟩, hab, rfl⟩
      have := mem_lookup_of_nodup hnd hab
      simp [this] at h
    have hk2 : k ∉ l2.map Prod.fst := fun hm =>
      hk (((hp.map Prod.fst).mem_iff).mpr hm)
    exact (lookup_eq_none_of_not_mem hk2).symm
  · have hmem : (k, v) ∈ l2 := hp.mem_iff.mp (lookup_mem h)
    have hnd2 : (l2.map Prod.fst).Nodup := (hp.map Prod.fst).nodup hnd
    exact (mem_lookup_of_nodup hnd2 hmem).symm

theorem lookup_filter_ne {β : Type} {p q : String} (h : q ≠ p) :
    ∀ (l : List (String × β)),
      List.lookup q (l.filter (fun e => e.1 != p)) = List.lookup q l := by
  intro l
  induction l with
  | nil => rfl
  | cons e es ih =>
    obtain ⟨a, b⟩ := e
    by_cases hap : a = p
    · have hqp : (q == a) = false := by
        rcases hb : q == a with _ | _
        · rfl
        · exact absurd (hap ▸ eq_of_beq hb) h
      have hfilt : ((a, b).1 != p) = false := by simp [hap]
      simp only [List.filter, hfilt, List.lookup, hqp]
      exact ih
    · have hfilt : ((a, b).1 != p) = true := by simpa using hap
      simp only [List.filter, hfilt]
      rcases hqa : q == a with _ | _
      · simp only [List.lookup, hqa]
        exact ih
      · simp only [List.lookup, hqa]

/-!  Lemmas about the filesystem model.  -/

theorem FS.lookupFile_writeFile_self (fs : FS) (p : String) (c : Content) :
    (fs.writeFile p c).lookupFile p = some c := by
  simp [FS.writeFile, FS.lookupFile, List.lookup]

theorem FS.lookupFile_writeFile_ne (fs : FS) {p q : String} (c : Content) (h : q ≠ p) :
    (fs.writeFile p c).lookupFile q = fs.lookupFile q := by
  have hqp : (q == p) = false := by
    rcases hb : q == p with _ | _
    · rfl
    · exact absurd (eq_of_beq hb) h
  simp only [FS.writeFile, FS.lookupFile, List.lookup, hqp]
  exact lookup_filter_ne h fs.files

theorem FS.lookupFile_removeFile_ne (fs : FS) {p q : String} (h : q ≠ p) :
    (fs.removeFile p).lookupFile q = fs.lookupFile q := by
  simp only [FS.removeFile, FS.lookupFile]
  exact lookup_filter_ne h fs.files

theorem FS.isDir_writeFile (fs : FS) (p q : String) (c : Content) :
    (fs.writeFile p c).isDir q = fs.isDir q := rfl

theorem FS.isDir_makedirs_self (fs : FS) (p : String) :
    (fs.makedirs p).isDir p = true := by
  simp [FS.isDir, FS.makedirs, ancestors, List.contains_cons]

/-!  Lemmas about the document iterator.  -/

theorem iterDocsGo_all_ok (fs : FS) :
    ∀ (l : List String),
      (∀ f ∈ l, ∃ j, fs.lookupFile f = some (Content.jsonDoc j)) →
      (iterDocsGo fs l).2 = none ∧ (iterDocsGo fs l).1.map Prod.fst = l := by
  intro l
  induction l with
  | nil => intro _; exact ⟨rfl, rfl⟩
  | cons f rest ih =>
    intro h
    obtain ⟨j, hj⟩ := h f (List.mem_cons_self f rest)
    have hrest := ih (fun g hg => h g (List.mem_cons_of_mem f hg))
    simp only [iterDocsGo, hj]
    exact ⟨hrest.1, by simp [hrest.2]⟩

theorem iterDocsGo_bad (fs : FS) (b t : String) (s2 : List String)
    (hb : fs.lookupFile b = some (Content.notJson t)) :
    ∀ (s1 : List String),
      (∀ f ∈ s1, ∃ j, fs.lookupFile f = some (Content.jsonDoc j)) →
      (iterDocsGo fs (s1 ++ b :: s2)).2 = some (WErr.recordWithInvalidJSON b) ∧
      (iterDocsGo fs (s1 ++ b :: s2)).1.map Prod.fst = s1 := by
  intro s1
  induction s1 with
  | nil => intro _; simp [iterDocsGo, hb]
  | cons f rest ih =>
    intro h
    obtain ⟨j, hj⟩ := h f (List.mem_cons_self f rest)
    have hr := ih (fun g hg => h g (List.mem_cons_of_mem f hg))
    simp only [List.cons_append, iterDocsGo, hj]
    exact ⟨hr.1, by simp [hr.2]⟩

theorem iterDocsGo_congr (fs1 fs2 : FS) :
    ∀ (l : List String),
      (∀ f ∈ l, fs1.lookupFile f = fs2.lookupFile f) →
      iterDocsGo fs1 l = iterDocsGo fs2 l := by
  intro l
  induction l with
  | nil => intro _; rfl
  | cons f rest ih =>
    intro h
    have hf := h f (List.mem_cons_self f rest)
    have hr := ih (fun g hg => h g (List.mem_cons_of_mem f hg))
    simp only [iterDocsGo, hf, hr]

/-!  Lemmas about download, save and ensure_downloaded.  -/

theorem download_events (digest : List Nat → String) (net : String → HttpResp)
    (tempName url filename : String) (expected_md5 : Option String) (fs : FS) :
    (download digest net tempName url filename expected_md5 fs).2.2 = [url] := by
  rcases expected_md5 with _ | e <;>
    (simp only [download]; split_ifs <;> rfl)

theorem download_ok (digest : List Nat → String) (net : String → HttpResp)
    (tempName url filename : String) (fs : FS)
    (hstatus : (net url).status < 400)
    (hdir : fs.isDir (dirname filename) = true) :
    (download digest net tempName url filename none fs).1 = none ∧
    (download digest net tempName url filename none fs).2.1.lookupFile filename =
      some (Content.bytes (net url).body) := by
  have hnot : ¬ (400 ≤ (net url).status) := by omega
  simp only [download, if_neg hnot]
  have hdir2 : FS.isDir
      ((fs.writeFile tempName (Content.bytes [])).writeFile tempName
        (Content.bytes (net url).body)) (dirname filename) = true := hdir
  simp only [hdir2, if_true]
  exact ⟨rfl, FS.lookupFile_writeFile_self _ _ _⟩

theorem Dataset.save_spec (d : Dataset) (fs : FS) (p : String)
    (hp : d.index_path = Except.ok p) (hdir : fs.isDir (dirname p) = true) :
    d.save fs = (none, fs.writeFile p (Content.jsonDoc d.to_dict)) := by
  simp only [Dataset.save, hp, hdir, if_true]

theorem Dataset.save_fails (d : Dataset) (fs : FS) (p : String)
    (hp : d.index_path = Except.ok p) (hdir : fs.isDir (dirname p) = false) :
    d.save fs = (some (WErr.fileNotFound p), fs) := by
  simp only [Dataset.save, hp, hdir]
  simp

theorem ensure_downloaded_cached (digest : List Nat → String) (net : String → HttpResp)
    (tempName : String) (d : Dataset) (fs : FS) (p : String)
    (hp : d.local_path = Except.ok p) (hex : fs.existsFile p = true) :
    d.ensure_downloaded digest net tempName fs = (Except.ok p, fs, []) := by
  simp only [Dataset.ensure_downloaded, hp, hex, if_true]

theorem ensure_downloaded_absent_events (digest : List Nat → String)
    (net : String → HttpResp) (tempName : String) (d : Dataset) (fs : FS) (p : String)
    (hp : d.local_path = Except.ok p) (hex : fs.existsFile p = false) :
    (d.ensure_downloaded digest net tempName fs).2.2 =
      [pyOrStr d.owid_data_url d.source_data_url] := by
  simp only [Dataset.ensure_downloaded, hp, hex]
  rcases hdl : download digest net tempName
      (pyOrStr d.owid_data_url d.source_data_url) p none
      (if fs.isDir (dirname p) then fs else fs.makedirs (dirname p)) with ⟨err, fs2, evs⟩
  have hev : evs = [pyOrStr d.owid_data_url d.source_data_url] := by
    have := download_events digest net tempName
      (pyOrStr d.owid_data_url d.source_data_url) p none
      (if fs.isDir (dirname p) then fs else fs.makedirs (dirname p))
    rw [hdl] at this
    exact this
  subst hev
  rcases err with _ | e <;> simp

theorem ensure_downloaded_absent_ok (digest : List Nat → String)
    (net : String → HttpResp) (tempName : String) (d : Dataset) (fs : FS) (p : String)
    (hp : d.local_path = Except.ok p) (hex : fs.existsFile p = false)
    (hstatus : (net (pyOrStr d.owid_data_url d.source_data_url)).status < 400) :
    (d.ensure_downloaded digest net tempName fs).1 = Except.ok p := by
  simp only [Dataset.ensure_downloaded, hp, hex]
  have hdir : FS.isDir (if fs.isDir (dirname p) then fs else fs.makedirs (dirname p))
      (dirname p) = true := by
    by_cases hd : fs.isDir (dirname p) = true
    · rw [if_pos hd]
      exact hd
    · rw [if_neg hd]
      exact FS.isDir_makedirs_self fs (dirname p)
  have hok := download_ok digest net tempName
    (pyOrStr d.owid_data_url d.source_data_url) p
    (if fs.isDir (dirname p) then fs else fs.makedirs (dirname p)) hstatus hdir
  rcases hdl : download digest net tempName
      (pyOrStr d.owid_data_url d.source_data_url) p none
      (if fs.isDir (dirname p) then fs else fs.makedirs (dirname p)) with ⟨err, fs2, evs⟩
  rw [hdl] at hok
  rcases err with _ | e
  · simp
  · exact absurd hok.1 (by simp)

/-- The serialization round-trip at the heart of the save/load cycle. -/
theorem from_dict_to_dict (d : Dataset) : Dataset.from_dict d.to_dict = some d := by
  obtain ⟨ns, sn, nm, de, so, u, da, sdu, fe, m, py, pd, odu⟩ := d
  cases m <;> cases py <;> cases pd <;> cases odu <;>
    simp [Dataset.to_dict, Dataset.from_dict, getField, asStr, asOptStr, asOptInt,
      asOptDate, optStrJson, optIntJson, optDateJson, List.lookup, decDate_dateToStr]

/-!  Claim theorems.  -/

/-- C1, as stated, is false: the source guards the digest comparison with
Python truthiness (expected_md5 and md5 differs), so the empty string as an
expected digest, although it differs from the digest "6" of the streamed
bytes, raises nothing and the file is promoted to the destination. -/
theorem C1_counterexample :
    digest0 (net0 "http://u").body ≠ "" ∧
    fs0.existsFile "cache/d.csv" = false ∧
    (download digest0 net0 "tmp/t1" "http://u" "cache/d.csv" (some "") fs0).1 = none ∧
    (download digest0 net0 "tmp/t1" "http://u" "cache/d.csv" (some "")
      fs0).2.1.existsFile "cache/d.csv" = true :=
  ⟨by decide, rfl, rfl, rfl⟩

/-- C1 (amended): if download is called with a non-empty expected digest that
differs from the digest of the streamed bytes, it raises ChecksumDoesNotMatch,
the temporary file is never promoted to the destination, and the destination
path is left unchanged (in particular no file appears there if none existed
before). -/
theorem C1_checksum_mismatch (digest : List Nat → String) (net : String → HttpResp)
    (tempName url dest e : String) (fs : FS)
    (hstatus : (net url).status < 400) (hne : e ≠ "")
    (hdiff : digest (net url).body ≠ e) (htd : tempName ≠ dest) :
    (download digest net tempName url dest (some e) fs).1 =
      some (WErr.checksumDoesNotMatch url) ∧
    (download digest net tempName url dest (some e) fs).2.1.lookupFile dest =
      fs.lookupFile dest := by
  have hnot : ¬ (400 ≤ (net url).status) := by omega
  have hmm : (e != "" && digest (net url).body != e) = true := by
    rw [Bool.and_eq_true, bne_iff_ne, bne_iff_ne]
    exact ⟨hne, hdiff⟩
  simp only [download, if_neg hnot, hmm, if_true]
  refine ⟨by trivial, ?_⟩
  rw [FS.lookupFile_writeFile_ne _ _ (Ne.symm htd),
    FS.lookupFile_writeFile_ne _ _ (Ne.symm htd)]

/-- Witness for C1_checksum_mismatch at a concrete wrong digest. -/
theorem C1_checksum_mismatch_witness :
    (download digest0 net0 "tmp/t1" "http://u" "cache/d.csv" (some "7") fs0).1 =
      some (WErr.checksumDoesNotMatch "http://u") ∧
    (download digest0 net0 "tmp/t1" "http://u" "cache/d.csv" (some "7")
      fs0).2.1.lookupFile "cache/d.csv" = fs0.lookupFile "cache/d.csv" :=
  C1_checksum_mismatch digest0 net0 "tmp/t1" "http://u" "cache/d.csv" "7" fs0
    (by decide) (by decide) (by decide) (by decide)

/-- C2, as stated, is false: the source tests the year with Python truthiness,
so a record whose publication_year is the integer 0 (and no date) does not get
version "0"; version derivation fails instead. -/
theorem C2_counterexample :
    dYearZero.publication_year = some 0 ∧
    dYearZero.publication_date = none ∧
    dYearZero.version = Except.error WErr.missingVersionField :=
  ⟨rfl, rfl, rfl⟩

/-- C2 (amended): the version string is str(publication_year) whenever the
year is present and nonzero, else str(publication_date) whenever the date is
present, and version derivation fails with MissingVersionField exactly when
neither a nonzero year nor a date is set. -/
theorem C2_version_rule (d : Dataset) :
    (∀ y : Int, d.publication_year = some y → y ≠ 0 →
      d.version = Except.ok (toString y)) ∧
    (∀ pd : PyDate, d.publication_date = some pd →
      (d.publication_year = none ∨ d.publication_year = some 0) →
      d.version = Except.ok (dateToStr pd)) ∧
    (d.version = Except.error WErr.missingVersionField ↔
      ((d.publication_year = none ∨ d.publication_year = some 0) ∧
        d.publication_date = none)) := by
  refine ⟨?_, ?_, ?_⟩
  · intro y hy hy0
    simp [Dataset.version, hy, hy0]
  · intro pd hpd hy
    rcases hy with hy | hy <;> simp [Dataset.version, hy, hpd]
  · rcases hy : d.publication_year with _ | y <;>
      rcases hpd : d.publication_date with _ | pd <;>
        simp only [Dataset.version, hy, hpd] <;> try simp
    all_goals (by_cases hy0 : y = 0 <;> simp [hy0])

/-- Witness for C2_version_rule on a record with year 2020. -/
theorem C2_version_rule_witness : d2020.version = Except.ok "2020" :=
  (C2_version_rule d2020).1 2020 rfl (by decide)

/-- C3, as stated, is false: a set-but-empty owid_data_url is falsy in Python,
so the download fetches source_data_url even though the mirror field is set. -/
theorem C3_counterexample :
    dEmptyMirror.owid_data_url = some "" ∧
    dEmptyMirror.source_data_url ≠ "" ∧
    fsEmpty.existsFile "~/.owid/walden/ns/2020/sn.csv" = false ∧
    (Dataset.ensure_downloaded digest0 net0 "tmp/t1" dEmptyMirror fsEmpty).2.2 =
      [dEmptyMirror.source_data_url] :=
  ⟨rfl, by decide, rfl, rfl⟩

/-- C3 (amended): ensure_downloaded is idempotent: when the cache file exists
it returns that path with no network fetch, and a second call returns the same
result; when the file is absent it performs one fetch from owid_data_url if
that field is set and non-empty, else from source_data_url, and returns the
local path whenever the transport succeeds. -/
theorem C3_ensure_downloaded (digest : List Nat → String) (net : String → HttpResp)
    (tempName : String) (d : Dataset) (fs : FS) (p : String)
    (hp : d.local_path = Except.ok p) :
    (fs.existsFile p = true →
      d.ensure_downloaded digest net tempName fs = (Except.ok p, fs, []) ∧
      d.ensure_downloaded digest net tempName
        ((d.ensure_downloaded digest net tempName fs).2.1) = (Except.ok p, fs, [])) ∧
    (fs.existsFile p = false →
      (d.ensure_downloaded digest net tempName fs).2.2 =
        [pyOrStr d.owid_data_url d.source_data_url] ∧
      ((net (pyOrStr d.owid_data_url d.source_data_url)).status < 400 →
        (d.ensure_downloaded digest net tempName fs).1 = Except.ok p)) := by
  constructor
  · intro hex
    have h1 := ensure_downloaded_cached digest net tempName d fs p hp hex
    refine ⟨h1, ?_⟩
    rw [h1]
    exact h1
  · intro hex
    refine ⟨ensure_downloaded_absent_events digest net tempName d fs p hp hex, ?_⟩
    intro hstatus
    exact ensure_downloaded_absent_ok digest net tempName d fs p hp hex hstatus

/-- Witness for C3_ensure_downloaded on an already-cached file. -/
theorem C3_ensure_downloaded_witness :
    Dataset.ensure_downloaded digest0 net0 "tmp/t1" d2020 fsCached =
      (Except.ok "~/.owid/walden/ns/2020/sn.csv", fsCached, []) :=
  ((C3_ensure_downloaded digest0 net0 "tmp/t1" d2020 fsCached
    "~/.owid/walden/ns/2020/sn.csv" rfl).1 rfl).1

/-- C4, as stated, is false: save opens the index path for writing without
creating parent directories, so on a filesystem without the parent directory
the write fails and nothing is written. -/
theorem C4_counterexample :
    d2020.index_path = Except.ok "walden/index/ns/2020/sn.json" ∧
    fsEmpty.isDir (dirname "walden/index/ns/2020/sn.json") = false ∧
    (Dataset.save d2020 fsEmpty).1 =
      some (WErr.fileNotFound "walden/index/ns/2020/sn.json") ∧
    (Dataset.save d2020 fsEmpty).2.lookupFile "walden/index/ns/2020/sn.json" = none :=
  ⟨rfl, rfl, rfl, rfl⟩

/-- C4 (amended): save serializes the record as JSON to its index path and
overwrites any prior content there, leaving every other path untouched,
provided the parent directory already exists; it does not create missing
parent directories, failing instead. -/
theorem C4_save (d : Dataset) (fs : FS) (p : String)
    (hp : d.index_path = Except.ok p) :
    (fs.isDir (dirname p) = true →
      (d.save fs).1 = none ∧
      (d.save fs).2.lookupFile p = some (Content.jsonDoc d.to_dict) ∧
      (∀ q, q ≠ p → (d.save fs).2.lookupFile q = fs.lookupFile q)) ∧
    (fs.isDir (dirname p) = false →
      d.save fs = (some (WErr.fileNotFound p), fs)) := by
  constructor
  · intro hdir
    rw [Dataset.save_spec d fs p hp hdir]
    exact ⟨rfl, FS.lookupFile_writeFile_self fs p _,
      fun q hq => FS.lookupFile_writeFile_ne fs _ hq⟩
  · intro hdir
    exact Dataset.save_fails d fs p hp hdir

/-- Witness for C4_save: saving over stale index content overwrites it. -/
theorem C4_save_witness :
    (Dataset.save d2020 fsIdx).1 = none ∧
    (Dataset.save d2020 fsIdx).2.lookupFile "walden/index/ns/2020/sn.json" =
      some (Content.jsonDoc d2020.to_dict) :=
  ⟨((C4_save d2020 fsIdx "walden/index/ns/2020/sn.json" rfl).1 rfl).1,
   ((C4_save d2020 fsIdx "walden/index/ns/2020/sn.json" rfl).1 rfl).2.1⟩

/-- C5: upload fails with a precondition error and leaves the record unchanged
when the derived local cache file is absent; when it exists, the file is pushed
under the remote key namespace/version/short_name.file_extension and
owid_data_url is set to the URL the upload call returns. -/
theorem C5_upload (up : String → String → Bool → String) (d : Dataset) (pub : Bool)
    (fs : FS) (v : String) (hv : d.version = Except.ok v) :
    (fs.existsFile (joinPath CACHE_DIR (joinPath (joinPath d.namespace_ v)
        d.short_name ++ "." ++ d.file_extension)) = false →
      (Dataset.upload up d pub fs).1 = some (WErr.preconditionFailed
        (joinPath CACHE_DIR (joinPath (joinPath d.namespace_ v)
          d.short_name ++ "." ++ d.file_extension))) ∧
      (Dataset.upload up d pub fs).2.1 = d ∧
      (Dataset.upload up d pub fs).2.2 = []) ∧
    (fs.existsFile (joinPath CACHE_DIR (joinPath (joinPath d.namespace_ v)
        d.short_name ++ "." ++ d.file_extension)) = true →
      (Dataset.upload up d pub fs).1 = none ∧
      (Dataset.upload up d pub fs).2.1 = { d with owid_data_url := some (up
        (joinPath CACHE_DIR (joinPath (joinPath d.namespace_ v)
          d.short_name ++ "." ++ d.file_extension))
        (joinPath (joinPath d.namespace_ v) d.short_name ++ "." ++ d.file_extension)
        pub) } ∧
      (Dataset.upload up d pub fs).2.2 = [⟨joinPath CACHE_DIR
        (joinPath (joinPath d.namespace_ v) d.short_name ++ "." ++ d.file_extension),
        joinPath (joinPath d.namespace_ v) d.short_name ++ "." ++ d.file_extension,
        pub⟩]) := by
  have hrb : d.relative_base =
      Except.ok (joinPath (joinPath d.namespace_ v) d.short_name) := by
    simp only [Dataset.relative_base, hv]
    rfl
  have hlp : d.local_path = Except.ok (joinPath CACHE_DIR
      (joinPath (joinPath d.namespace_ v) d.short_name ++ "." ++ d.file_extension)) := by
    simp only [Dataset.local_path, hrb]
    rfl
  have hrk : d.remote_key = Except.ok
      (joinPath (joinPath d.namespace_ v) d.short_name ++ "." ++ d.file_extension) := by
    simp only [Dataset.remote_key, hrb]
    rfl
  constructor
  · intro hex
    simp [Dataset.upload, hlp, hex]
  · intro hex
    simp [Dataset.upload, hlp, hex, hrk]

/-- Witness for C5_upload: uploading a cached file sets the mirror URL. -/
theorem C5_upload_witness :
    (Dataset.upload up0 d2020 false fsCached).1 = none ∧
    (Dataset.upload up0 d2020 false fsCached).2.1 = { d2020 with
      owid_data_url := some (up0 "~/.owid/walden/ns/2020/sn.csv"
        "ns/2020/sn.csv" false) } ∧
    (Dataset.upload up0 d2020 false fsCached).2.2 =
      [⟨"~/.owid/walden/ns/2020/sn.csv", "ns/2020/sn.csv", false⟩] :=
  (C5_upload up0 d2020 false fsCached "2020" rfl).2 rfl

/-- C6: an index document that fails to parse as JSON aborts the scan with
RecordWithInvalidJSON naming the offending path; exactly the documents
strictly earlier in sorted order have been yielded, none at or after it. -/
theorem C6_iter_docs_abort (fs : FS) (folder : String) (s1 s2 : List String)
    (b t : String)
    (hsplit : sortStrs (iter_json fs folder) = s1 ++ b :: s2)
    (hs1 : ∀ f ∈ s1, ∃ j, fs.lookupFile f = some (Content.jsonDoc j))
    (hb : fs.lookupFile b = some (Content.notJson t)) :
    (iter_docs fs folder).2 = some (WErr.recordWithInvalidJSON b) ∧
    (iter_docs fs folder).1.map Prod.fst = s1 := by
  unfold iter_docs
  rw [hsplit]
  exact iterDocsGo_bad fs b t s2 hb s1 hs1

/-- Witness for C6_iter_docs_abort on a tree whose middle document is bad. -/
theorem C6_iter_docs_abort_witness :
    (iter_docs fsB "idx").2 = some (WErr.recordWithInvalidJSON "idx/a/2020/y.json") ∧
    (iter_docs fsB "idx").1.map Prod.fst = ["idx/a/2020/x.json"] := by
  refine C6_iter_docs_abort fsB "idx" ["idx/a/2020/x.json"] ["idx/b/2019/z.json"]
    "idx/a/2020/y.json" "oops" rfl ?_ rfl
  intro f hf
  simp only [List.mem_cons, List.not_mem_nil, or_false] at hf
  subst hf
  exact ⟨Json.num 2, rfl⟩

/-- C7: on a tree of well-formed documents with distinct paths, iter_docs
yields every (path, document) pair, in sorted path order, with no error, and
the result does not depend on the filesystem walk order. -/
theorem C7_iter_docs_sorted (fs1 fs2 : FS) (folder : String)
    (hperm : fs1.files.Perm fs2.files)
    (hnd : (fs1.files.map Prod.fst).Nodup)
    (hwf : ∀ f ∈ iter_json fs1 folder,
      ∃ j, fs1.lookupFile f = some (Content.jsonDoc j)) :
    iter_docs fs1 folder = iter_docs fs2 folder ∧
    (iter_docs fs1 folder).2 = none ∧
    ((iter_docs fs1 folder).1.map Prod.fst).Pairwise (fun a b => strLe a b = true) ∧
    ((iter_docs fs1 folder).1.map Prod.fst).Perm (iter_json fs1 folder) := by
  have hjson : (iter_json fs1 folder).Perm (iter_json fs2 folder) := by
    unfold iter_json
    exact List.Perm.filter _ (hperm.map Prod.fst)
  have hsorteq : sortStrs (iter_json fs1 folder) = sortStrs (iter_json fs2 folder) :=
    sortStrs_eq_of_perm hjson
  have hlook : ∀ q, fs1.lookupFile q = fs2.lookupFile q := fun q =>
    lookup_eq_of_perm hperm hnd q
  have hgo : iterDocsGo fs1 (sortStrs (iter_json fs1 folder)) =
      iterDocsGo fs2 (sortStrs (iter_json fs1 folder)) :=
    iterDocsGo_congr fs1 fs2 _ (fun f _ => hlook f)
  have hall : ∀ f ∈ sortStrs (iter_json fs1 folder),
      ∃ j, fs1.lookupFile f = some (Content.jsonDoc j) := fun f hf =>
    hwf f ((sortStrs_perm _).mem_iff.mp hf)
  obtain ⟨h2, h1⟩ := iterDocsGo_all_ok fs1 _ hall
  refine ⟨?_, h2, ?_, ?_⟩
  · unfold iter_docs
    rw [← hsorteq, hgo]
  · have hm : List.map Prod.fst (iter_docs fs1 folder).1 =
        sortStrs (iter_json fs1 folder) := h1
    rw [hm]
    exact sortStrs_sorted _
  · have hm : List.map Prod.fst (iter_docs fs1 folder).1 =
        sortStrs (iter_json fs1 folder) := h1
    rw [hm]
    exact sortStrs_perm _

/-- Witness for C7_iter_docs_sorted: the same tree in reversed creation order
iterates identically and without error. -/
theorem C7_iter_docs_sorted_witness :
    iter_docs fsA "idx" = iter_docs fsA2 "idx" ∧ (iter_docs fsA "idx").2 = none := by
  have hwf : ∀ f ∈ iter_json fsA "idx",
      ∃ j, fsA.lookupFile f = some (Content.jsonDoc j) := by
    intro f hf
    rw [show iter_json fsA "idx" =
      ["idx/b/2019/z.json", "idx/a/2020/y.json", "idx/a/2020/x.json"] from rfl] at hf
    simp only [List.mem_cons, List.not_mem_nil, or_false] at hf
    rcases hf with rfl | rfl | rfl
    · exact ⟨Json.null, rfl⟩
    · exact ⟨Json.num 1, rfl⟩
    · exact ⟨Json.num 2, rfl⟩
  have h := C7_iter_docs_sorted fsA fsA2 "idx"
    (List.reverse_perm fsA.files).symm (by decide) hwf
  exact ⟨h.1, h.2.1⟩

/-- C8: for a record with a derivable version, save writes the serialized
document at the index path (given its parent directory), and reading that
document back and reconstructing a record gives back the original, field for
field, including all optional fields. -/
theorem C8_save_load_roundtrip (d : Dataset) (fs : FS) (p : String)
    (hp : d.index_path = Except.ok p) (hdir : fs.isDir (dirname p) = true) :
    (d.save fs).2.lookupFile p = some (Content.jsonDoc d.to_dict) ∧
    Dataset.from_dict d.to_dict = some d := by
  rw [Dataset.save_spec d fs p hp hdir]
  exact ⟨FS.lookupFile_writeFile_self fs p _, from_dict_to_dict d⟩

/-- Witness for C8_save_load_roundtrip on a record with every optional field
populated. -/
theorem C8_save_load_roundtrip_witness :
    (Dataset.save dFull fsIdx).2.lookupFile "walden/index/ns/2020/sn.json" =
      some (Content.jsonDoc dFull.to_dict) ∧
    Dataset.from_dict dFull.to_dict = some dFull :=
  C8_save_load_roundtrip dFull fsIdx "walden/index/ns/2020/sn.json" rfl rfl

/-- C9: the local cache path, index path and remote key are pure functions of
namespace, version, short_name and file_extension: two records agreeing on
those compute identical paths regardless of every other field. -/
theorem C9_path_determinism (d1 d2 : Dataset)
    (hn : d1.namespace_ = d2.namespace_) (hs : d1.short_name = d2.short_name)
    (he : d1.file_extension = d2.file_extension) (hv : d1.version = d2.version) :
    d1.local_path = d2.local_path ∧ d1.index_path = d2.index_path ∧
    d1.remote_key = d2.remote_key := by
  have hrb : d1.relative_base = d2.relative_base := by
    unfold Dataset.relative_base
    rw [hv, hn, hs]
  refine ⟨?_, ?_, ?_⟩
  · unfold Dataset.local_path
    rw [hrb, he]
  · unfold Dataset.index_path
    rw [hrb]
  · unfold Dataset.remote_key
    rw [hrb, he]

/-- Witness for C9_path_determinism on two records that differ in name,
description, md5 and source_data_url. -/
theorem C9_path_determinism_witness :
    d2020.local_path = dOther.local_path ∧ d2020.index_path = dOther.index_path ∧
    d2020.remote_key = dOther.remote_key :=
  C9_path_determinism d2020 dOther rfl rfl rfl rfl

/-- C10: when the cache file is absent and owid_data_url is set but empty, the
Python or-expression is decided by truthiness, so ensure_downloaded fetches
source_data_url, exactly as if the mirror field were unset. -/
theorem C10_empty_mirror_fallback (digest : List Nat → String) (net : String → HttpResp)
    (tempName : String) (d : Dataset) (fs : FS) (p : String)
    (hp : d.local_path = Except.ok p) (hex : fs.existsFile p = false)
    (howid : d.owid_data_url = some "") :
    (d.ensure_downloaded digest net tempName fs).2.2 = [d.source_data_url] := by
  have h := ensure_downloaded_absent_events digest net tempName d fs p hp hex
  rw [howid] at h
  simpa [pyOrStr] using h

/-- Witness for C10_empty_mirror_fallback at a concrete record. -/
theorem C10_empty_mirror_fallback_witness :
    (Dataset.ensure_downloaded digest0 net0 "tmp/t1" dEmptyMirror fsEmpty).2.2 =
      [dEmptyMirror.source_data_url] :=
  C10_empty_mirror_fallback digest0 net0 "tmp/t1" dEmptyMirror fsEmpty
    "~/.owid/walden/ns/2020/sn.csv" rfl rfl rfl

end Walden
